import Mathlib

/-!
Verification of the cnn-accelerator E4M3 arithmetic units, integer MAC/PE,
and processing arrays, as a shallow embedding of the MyHDL source.

Conventions of the embedding:
* Each MyHDL `always_seq` block becomes a step function on a state record;
  all reads in one clock cycle see the old register values and all `.next`
  assignments take effect together, exactly as in MyHDL.
* `intbv` registers are Nat (unsigned) or Int (signed ranges).  A register
  write that the surrounding code does not already keep inside the declared
  `intbv` range is modelled with an explicit bound check (`wrNat`,
  `wrSliceI`); MyHDL raises on such writes, so the run returns `none`.
* A multi-cycle run is iterated with fuel that exceeds the machine's
  longest possible path; `none` means the simulated unit never presented a
  result (fault or fuel).
-/

/-- MyHDL slice x[hi:lo]: bits lo .. hi-1 of x. -/
def sliceBits (x hi lo : Nat) : Nat := x / 2 ^ lo % 2 ^ (hi - lo)

/-- Stored exponent field of an E4M3 pattern (bits 6..3). -/
def expField (b : Nat) : Nat := sliceBits b 7 3

/-- Mantissa field of an E4M3 pattern (bits 2..0). -/
def manField (b : Nat) : Nat := sliceBits b 3 0

/-- Sign bit of an E4M3 pattern. -/
def signBitOf (b : Nat) : Bool := b.testBit 7

/-- The E4M3 NaN test used throughout the source: exponent field 15 and
mantissa field 7 (patterns 0x7F and 0xFF). -/
def isNaNpat (b : Nat) : Bool := expField b == 15 && manField b == 7

/-- Write to an unsigned `intbv[width:]` register; MyHDL raises when the
value does not fit, which the embedding reports as `none`. -/
def wrNat (width v : Nat) : Option Nat :=
  if v < 2 ^ width then some v else none

/-- Write an Int value into an unsigned bit slice of the given width;
MyHDL raises when the value is negative or does not fit. -/
def wrSliceI (width : Nat) (v : Int) : Option Nat :=
  if 0 ≤ v ∧ v < 2 ^ width then some v.toNat else none

/-- States of the fp8_e4m3_add state machine (fp8_e4m3_add.py). -/
inductive AddSt
  | UNPACK | SPECIAL_CASES | ALIGN | ADD_0 | ADD_1
  | NORMALISE_1 | NORMALISE_2 | ROUND | PACK | PUT_Z
deriving DecidableEq, Repr

/-- Registers of fp8_e4m3_add: operand latches `a`, `b`, result register
`z`, unpacked sign/exponent/mantissa fields, guard/round/sticky bits,
the raw-field exponent difference and the mantissa sum. -/
structure AddState where
  a : Nat
  b : Nat
  z : Nat
  a_s : Bool
  b_s : Bool
  z_s : Bool
  a_e : Int
  b_e : Int
  z_e : Int
  a_m : Nat
  b_m : Nat
  z_m : Nat
  guard : Bool
  round_bit : Bool
  sticky : Bool
  exp_diff : Int
  sum_val : Nat
  st : AddSt
deriving DecidableEq, Repr

/-- One clock cycle of the fp8_e4m3_add state machine (rst low,
operation in flight).  Mirrors fp8_e4m3_add.py lines 96-330 with
WIDTH=8, EXP_BITS=4, MAN_BITS=3, EXP_BIAS=7, max_shifts=5. -/
def addStep (s : AddState) : Option AddState :=
  match s.st with
  | AddSt.UNPACK =>
      let aeRaw : Int := (expField s.a : Int) - 7
      let beRaw : Int := (expField s.b : Int) - 7
      some { s with
        a_s := s.a.testBit 7
        b_s := s.b.testBit 7
        a_e := if expField s.a ≠ 0 then aeRaw else -7 + 1
        b_e := if expField s.b ≠ 0 then beRaw else -7 + 1
        a_m := if expField s.a ≠ 0 then 16 + 2 * manField s.a else 2 * manField s.a
        b_m := if expField s.b ≠ 0 then 16 + 2 * manField s.b else 2 * manField s.b
        exp_diff := if aeRaw > beRaw then aeRaw - beRaw else beRaw - aeRaw
        st := AddSt.SPECIAL_CASES }
  | AddSt.SPECIAL_CASES =>
      if (expField s.a = 15 ∧ manField s.a = 7) ∨ (expField s.b = 15 ∧ manField s.b = 7) then
        some { s with z := (cond s.z_s 1 0) * 128 + 15 * 8 + 7, st := AddSt.PUT_Z }
      else if expField s.a = 0 ∧ manField s.a = 0 then
        if expField s.b = 0 ∧ manField s.b = 0 then
          some { s with z := (cond (s.a_s && s.b_s) 1 0) * 128, st := AddSt.PUT_Z }
        else
          some { s with z := s.b, st := AddSt.PUT_Z }
      else if expField s.b = 0 ∧ manField s.b = 0 then
        some { s with z := s.a, st := AddSt.PUT_Z }
      else if ((expField s.a = 15 ∧ manField s.a = 6) ∨
               (expField s.b = 15 ∧ manField s.b = 6)) ∧ s.a_s = s.b_s then
        some { s with z := (cond (s.a_s && s.b_s) 1 0) * 128 + 15 * 8 + 6, st := AddSt.PUT_Z }
      else
        some { s with st := AddSt.ALIGN }
  | AddSt.ALIGN =>
      if s.a_e > s.b_e then
        if s.exp_diff > 5 then
          some { s with z := s.a, st := AddSt.PUT_Z }
        else
          some { s with b_e := s.b_e + 1, b_m := s.b_m / 2 ||| s.b_m % 2 }
      else if s.a_e < s.b_e then
        if s.exp_diff > 5 then
          some { s with z := s.b, st := AddSt.PUT_Z }
        else
          some { s with a_e := s.a_e + 1, a_m := s.a_m / 2 ||| s.a_m % 2 }
      else
        some { s with st := AddSt.ADD_0 }
  | AddSt.ADD_0 =>
      if s.a_s = s.b_s then
        some { s with z_e := s.a_e, sum_val := s.a_m + s.b_m, z_s := s.a_s, st := AddSt.ADD_1 }
      else if s.a_m ≥ s.b_m then
        some { s with z_e := s.a_e, sum_val := s.a_m - s.b_m, z_s := s.a_s, st := AddSt.ADD_1 }
      else
        some { s with z_e := s.a_e, sum_val := s.b_m - s.a_m, z_s := s.b_s, st := AddSt.ADD_1 }
  | AddSt.ADD_1 =>
      if s.sum_val.testBit 5 then
        some { s with z_m := sliceBits s.sum_val 6 2, guard := s.sum_val.testBit 1,
                      round_bit := s.sum_val.testBit 0, sticky := false,
                      z_e := s.z_e + 1, st := AddSt.NORMALISE_1 }
      else
        some { s with z_m := sliceBits s.sum_val 5 1, guard := s.sum_val.testBit 0,
                      round_bit := false, sticky := false, st := AddSt.NORMALISE_1 }
  | AddSt.NORMALISE_1 =>
      if s.z_m.testBit 3 = false ∧ s.z_e > -7 + 1 then
        some { s with z_e := s.z_e - 1, z_m := 2 * s.z_m + cond s.guard 1 0,
                      guard := s.round_bit, round_bit := false }
      else
        some { s with st := AddSt.NORMALISE_2 }
  | AddSt.NORMALISE_2 =>
      if s.z_e < -7 + 1 then
        some { s with z_e := s.z_e + 1, guard := s.z_m.testBit 0, z_m := s.z_m / 2,
                      round_bit := s.guard, sticky := s.sticky || s.round_bit }
      else
        some { s with st := AddSt.ROUND }
  | AddSt.ROUND =>
      if s.guard && (s.round_bit || s.sticky || s.z_m.testBit 0) then do
        let zm ← wrNat 4 (s.z_m + 1)
        if s.z_m = 7 then
          some { s with z_m := zm, z_e := s.z_e + 1, st := AddSt.PACK }
        else
          some { s with z_m := zm, st := AddSt.PACK }
      else
        some { s with st := AddSt.PACK }
  | AddSt.PACK => do
      let eRaw ← wrSliceI 4 (s.z_e + 7)
      let mOut := s.z_m % 8
      let eOut := if s.z_e = -7 + 1 ∧ s.z_m.testBit 3 = false then 0 else eRaw
      let sOut := if s.z_e ≤ -7 + 1 ∧ s.z_m = 0 then false else s.z_s
      let eOut := if s.z_e ≥ 7 then 15 else eOut
      let mOut := if s.z_e ≥ 7 then 6 else mOut
      some { s with z := (cond sOut 1 0) * 128 + eOut * 8 + mOut, st := AddSt.PUT_Z }
  | AddSt.PUT_Z => some s

/-- Iterate the adder until PUT_Z presents the result. -/
def addRunGo : Nat → AddState → Option Nat
  | 0, _ => none
  | fuel + 1, s =>
      if s.st = AddSt.PUT_Z then some s.z
      else do addRunGo fuel (← addStep s)

/-- Post-reset state of the adder after an accepted start pulse latched
the operands (all other registers hold their reset value zero). -/
def addInit (ia ib : Nat) : AddState :=
  { a := ia, b := ib, z := 0, a_s := false, b_s := false, z_s := false,
    a_e := 0, b_e := 0, z_e := 0, a_m := 0, b_m := 0, z_m := 0,
    guard := false, round_bit := false, sticky := false,
    exp_diff := 0, sum_val := 0, st := AddSt.UNPACK }

/-- One complete operation of fp8_e4m3_add from IDLE (with start) through
the done pulse; `some` is the 8-bit result on output_z, `none` means the
simulation faulted before presenting a result. -/
def fp8_e4m3_add (ia ib : Nat) : Option Nat := addRunGo 64 (addInit ia ib)

/-- States of the fp8_e4m3_multiply state machine (fp8_e4m3_mult.py). -/
inductive MulSt
  | UNPACK | SPECIAL_CASES | MULTIPLY | NORMALIZE | ROUND | PACK | PUT_Z
deriving DecidableEq, Repr

/-- Registers of fp8_e4m3_multiply. -/
structure MulState where
  a : Nat
  b : Nat
  z : Nat
  a_sign : Bool
  b_sign : Bool
  z_sign : Bool
  a_exp : Int
  b_exp : Int
  z_exp : Int
  a_man : Nat
  b_man : Nat
  product : Nat
  z_man : Nat
  a_is_zero : Bool
  b_is_zero : Bool
  a_is_nan : Bool
  b_is_nan : Bool
  guard : Bool
  round_bit : Bool
  sticky : Bool
  st : MulSt
deriving DecidableEq, Repr

/-- One clock cycle of the fp8_e4m3_multiply state machine.  Mirrors
fp8_e4m3_mult.py lines 84-244.  Every register write in this unit stays
inside its declared intbv range, so the step is total. -/
def mulStep (s : MulState) : MulState :=
  match s.st with
  | MulSt.UNPACK =>
      { s with
        a_sign := s.a.testBit 7
        b_sign := s.b.testBit 7
        a_exp := if expField s.a ≠ 0 then (expField s.a : Int) - 7 else 1 - 7
        b_exp := if expField s.b ≠ 0 then (expField s.b : Int) - 7 else 1 - 7
        a_man := if expField s.a ≠ 0 then 8 + manField s.a else manField s.a
        b_man := if expField s.b ≠ 0 then 8 + manField s.b else manField s.b
        a_is_zero := expField s.a = 0 ∧ manField s.a = 0
        b_is_zero := expField s.b = 0 ∧ manField s.b = 0
        a_is_nan := expField s.a = 15 ∧ manField s.a = 7
        b_is_nan := expField s.b = 15 ∧ manField s.b = 7
        st := MulSt.SPECIAL_CASES }
  | MulSt.SPECIAL_CASES =>
      -- the zero branch reads the z_sign register before this cycle's
      -- update lands, exactly as the MyHDL signal semantics dictate
      if s.a_is_nan || s.b_is_nan then
        { s with z_sign := s.a_sign ^^ s.b_sign, z := 15 * 8 + 4, st := MulSt.PUT_Z }
      else if s.a_is_zero || s.b_is_zero then
        { s with z_sign := s.a_sign ^^ s.b_sign, z := (cond s.z_sign 1 0) * 128,
                 st := MulSt.PUT_Z }
      else
        { s with z_sign := s.a_sign ^^ s.b_sign, st := MulSt.MULTIPLY }
  | MulSt.MULTIPLY =>
      if s.a_man.testBit 3 = false ∧ s.a_man ≠ 0 then
        { s with a_man := 2 * s.a_man, a_exp := s.a_exp - 1 }
      else if s.b_man.testBit 3 = false ∧ s.b_man ≠ 0 then
        { s with b_man := 2 * s.b_man, b_exp := s.b_exp - 1 }
      else if s.a_exp + s.b_exp ≥ 7 + 2 then
        { s with z_exp := s.a_exp + s.b_exp, product := s.a_man * s.b_man,
                 z := (cond s.z_sign 1 0) * 128 + 126, st := MulSt.PUT_Z }
      else
        { s with z_exp := s.a_exp + s.b_exp, product := s.a_man * s.b_man,
                 st := MulSt.NORMALIZE }
  | MulSt.NORMALIZE =>
      if s.product.testBit 7 then
        { s with z_man := sliceBits s.product 7 4, z_exp := s.z_exp + 1,
                 guard := s.product.testBit 2, round_bit := s.product.testBit 1,
                 sticky := s.product.testBit 0, st := MulSt.ROUND }
      else
        { s with z_man := sliceBits s.product 6 3,
                 guard := s.product.testBit 2, round_bit := s.product.testBit 1,
                 sticky := s.product.testBit 0, st := MulSt.ROUND }
  | MulSt.ROUND =>
      if s.guard && (s.round_bit || s.sticky || s.z_man.testBit 0) then
        if s.z_man = 15 then
          { s with z_man := s.z_man + 1, z_exp := s.z_exp + 1, st := MulSt.PACK }
        else
          { s with z_man := s.z_man + 1, st := MulSt.PACK }
      else
        { s with st := MulSt.PACK }
  | MulSt.PACK =>
      if s.z_exp < -7 - 3 then
        { s with z := (cond s.z_sign 1 0) * 128, st := MulSt.PUT_Z }
      else if s.z_exp < -7 then
        if (-7 - s.z_exp) ≤ 3 then
          { s with z := (cond s.z_sign 1 0) * 128 + s.z_man / 2 ^ (-7 - s.z_exp).toNat % 8,
                   st := MulSt.PUT_Z }
        else
          { s with z := (cond s.z_sign 1 0) * 128, st := MulSt.PUT_Z }
      else if s.z_exp ≥ 7 + 2 then
        { s with z := (cond s.z_sign 1 0) * 128 + 15 * 8 + 6, st := MulSt.PUT_Z }
      else
        { s with z := (cond s.z_sign 1 0) * 128 + (s.z_exp + 7).toNat * 8 + s.z_man % 8,
                 st := MulSt.PUT_Z }
  | MulSt.PUT_Z => s

/-- Iterate the multiplier until PUT_Z presents the result. -/
def mulRunGo : Nat → MulState → Option Nat
  | 0, _ => none
  | fuel + 1, s =>
      if s.st = MulSt.PUT_Z then some s.z
      else mulRunGo fuel (mulStep s)

/-- Post-reset state of the multiplier after an accepted start pulse. -/
def mulInit (ia ib : Nat) : MulState :=
  { a := ia, b := ib, z := 0, a_sign := false, b_sign := false, z_sign := false,
    a_exp := 0, b_exp := 0, z_exp := 0, a_man := 0, b_man := 0,
    product := 0, z_man := 0,
    a_is_zero := false, b_is_zero := false, a_is_nan := false, b_is_nan := false,
    guard := false, round_bit := false, sticky := false, st := MulSt.UNPACK }

/-- One complete operation of fp8_e4m3_multiply from IDLE (with start)
through the done pulse. -/
def fp8_e4m3_multiply (ia ib : Nat) : Option Nat := mulRunGo 32 (mulInit ia ib)

/-- Floor of a rational (the quotient of the reduced numerator by the
denominator rounds toward minus infinity for Int division). -/
def ratFloor (q : ℚ) : ℤ := q.num / q.den

/-- Python round(): nearest integer, ties to even.  The helper operates on
exact dyadic rationals, on which binary64 arithmetic is exact, so ℚ models
the Python floats of fp8_helpers.py without error. -/
def pyRound (q : ℚ) : ℤ :=
  let fl := ratFloor q
  let fr := q - fl
  if fr < 1 / 2 then fl
  else if 1 / 2 < fr then fl + 1
  else if fl % 2 = 0 then fl else fl + 1

/-- The power 2.0 ** e of to_float, written so that it evaluates for a
negative integer exponent. -/
def pow2Q (e : ℤ) : ℚ :=
  if 0 ≤ e then ((2 ^ e.toNat : Nat) : ℚ) else 1 / ((2 ^ (-e).toNat : Nat) : ℚ)

/-- First normalization loop of E4M3Format._float_to_e4m3:
while f >= 2.0 and exp < 7: f /= 2; exp += 1. -/
def encScaleDown : Nat → ℚ → ℤ → ℚ × ℤ
  | 0, f, e => (f, e)
  | fuel + 1, f, e =>
      if 2 ≤ f ∧ e < 7 then encScaleDown fuel (f / 2) (e + 1) else (f, e)

/-- Second normalization loop of E4M3Format._float_to_e4m3:
while f < 1.0 and exp > -7: f *= 2; exp -= 1. -/
def encScaleUp : Nat → ℚ → ℤ → ℚ × ℤ
  | 0, f, e => (f, e)
  | fuel + 1, f, e =>
      if f < 1 ∧ -7 < e then encScaleUp fuel (f * 2) (e - 1) else (f, e)

/-- E4M3Format._float_to_e4m3 of tests/utils/fp8_helpers.py (the NaN input
branch is outside ℚ and cannot arise here). -/
def float_to_fp8 (f : ℚ) : Nat :=
  if f = 0 then 0
  else
    let sign : Nat := if f < 0 then 0x80 else 0
    let g := if f < 0 then -f else f
    if g = 256 then sign + 0x78
    else if 448 < g then sign + 0x7E
    else if g < -448 then sign + 0xFE
    else
      let p2 := encScaleUp 32 (encScaleDown 16 g 0).1 (encScaleDown 16 g 0).2
      if p2.2 ≤ -7 then
        let frac := (pyRound (p2.1 * 8)).toNat
        sign + (if 7 < frac then 7 else frac)
      else if 7 < p2.2 then sign + 0x7E
      else
        let frac := pyRound ((p2.1 - 1) * 8)
        if 7 < frac then
          if 14 < p2.2 + 7 + 1 then sign + 0x7E
          else sign + (p2.2 + 7 + 1).toNat * 8
        else sign + (p2.2 + 7).toNat * 8 + frac.toNat

/-- E4M3Format.to_float of tests/utils/fp8_helpers.py; `none` stands for
the float NaN returned on the two NaN patterns. -/
def fp8_to_float (b : Nat) : Option ℚ :=
  if b = 0x7F ∨ b = 0xFF then none
  else
    let e := expField b
    let fr := manField b
    if e = 0 ∧ fr = 0 then some 0
    else
      let nf : ℚ := if e = 0 then (fr : ℚ) / 8 else (fr : ℚ) / 8 + 1
      let ue : ℤ := if e = 0 then -6 else (e : ℤ) - 7
      let v := nf * pow2Q ue
      some (if b.testBit 7 then -v else v)

/-- float_to_fp8(fp8_to_float(b)), the round trip of §8 of the spec. -/
def fp8RoundTrip (b : Nat) : Option Nat := (fp8_to_float b).map float_to_fp8

/-- Maximum accumulator value of processing_element (pe.py line 20). -/
def accMax (accWidth : Nat) : Int := 2 ^ (accWidth - 1) - 1

/-- Minimum accumulator value of processing_element (pe.py line 19). -/
def accMin (accWidth : Nat) : Int := -(2 ^ (accWidth - 1))

/-- Registers of the integer processing_element (pe.py). -/
structure PEState where
  accumulator : Int
  product_latched : Int
  valid_product : Bool
  overflow_flag : Bool
  done_flag : Bool
deriving DecidableEq, Repr

/-- One clock cycle of processing_element.seq_logic (pe.py lines 41-71)
together with the combinational product i_a * i_b; o_result mirrors the
accumulator combinationally.  Reset is the initial all-zero state. -/
def processing_element_step (accWidth : Nat) (i_clear i_enable : Bool)
    (i_a i_b : Int) (s : PEState) : PEState :=
  let product := i_a * i_b
  if i_clear then
    { accumulator := 0, product_latched := 0, valid_product := false,
      overflow_flag := false, done_flag := false }
  else if i_enable && !s.valid_product then
    { s with product_latched := product, valid_product := true, done_flag := false }
  else if s.valid_product then
    let temp_sum := s.accumulator + s.product_latched
    if temp_sum > accMax accWidth then
      { s with accumulator := accMax accWidth, overflow_flag := true,
               done_flag := true, valid_product := false }
    else if temp_sum < accMin accWidth then
      { s with accumulator := accMin accWidth, overflow_flag := true,
               done_flag := true, valid_product := false }
    else
      { s with accumulator := temp_sum, overflow_flag := false,
               done_flag := true, valid_product := false }
  else
    { s with done_flag := false }

/-- Reset state of processing_element. -/
def peReset : PEState :=
  { accumulator := 0, product_latched := 0, valid_product := false,
    overflow_flag := false, done_flag := false }

/-- One complete MAC operation of the PE: an enable cycle that latches the
product a*b followed by the accumulate cycle. -/
def peMacOp (accWidth : Nat) (a b : Int) (s : PEState) : PEState :=
  processing_element_step accWidth false false 0 0
    (processing_element_step accWidth false true a b s)

/-- n complete MAC operations of the fixed operand pair (a, b) from reset. -/
def peMacOpN (accWidth : Nat) (a b : Int) : Nat → PEState
  | 0 => peReset
  | n + 1 => peMacOp accWidth a b (peMacOpN accWidth a b n)

/-- The aggregate_flags OR-reduction of the nine PE overflow flags
(int_processing_array.py lines 51-61). -/
def processing_array_3x3_overflow (ov : Fin 3 → Fin 3 → Bool) : Bool :=
  (List.finRange 3).any fun a => (List.finRange 3).any fun b => ov a b

/-- States of the FP8 MAC multiply pipeline.
Modelled from the spec: fp8_e4m3_mac (imported by fp8_pe.py from
src/hdl/components/fp8_mac.py) is absent from the source tree, so the two
coupled state machines of §4.4 are embedded from the spec text. -/
inductive MulPipeSt
  | idle | multiply | waitDone
deriving DecidableEq, Repr

/-- States of the FP8 MAC accumulate pipeline.
Modelled from the spec: see MulPipeSt. -/
inductive AccPipeSt
  | idle | add | waitAdd | update
deriving DecidableEq, Repr

/-- Registers of the FP8 MAC unit.
Modelled from the spec (§4.4): operand latches, the holding register for
the completed product, the capacity-1 pending flag, the accumulator, the
read_enable-gated output register and the registered mac_done pulse. -/
structure MacState where
  mulSt : MulPipeSt
  accSt : AccPipeSt
  pending : Bool
  opA : Nat
  opB : Nat
  holdReg : Nat
  acc : Nat
  outReg : Nat
  macDone : Bool
deriving DecidableEq, Repr

/-- Per-cycle inputs of the FP8 MAC unit.
Modelled from the spec: mac_start/clear_acc/read_enable from the caller,
and the done/result interfaces of the multiplier and adder sub-units. -/
structure MacIn where
  macStart : Bool
  clearAcc : Bool
  readEnable : Bool
  inA : Nat
  inB : Nat
  multDone : Bool
  multResult : Nat
  addDone : Bool
  addResult : Nat
deriving DecidableEq, Repr

/-- ready_for_new = (multiply pipeline idle) AND (no pending product),
the formula of §4.4. -/
def ready_for_new (s : MacState) : Bool :=
  decide (s.mulSt = MulPipeSt.idle) && !s.pending

/-- One clock cycle of the FP8 MAC unit.
Modelled from the spec (§4.4): the multiply pipeline latches operands on
mac_start, waits for the multiplier done and captures the product; the
pending flag is set by that capture and cleared when UPDATE commits (or by
clear_acc); the accumulate pipeline submits pending products to the adder
and pulses mac_done for one cycle while committing; the output register is
updated only while read_enable is asserted. -/
def fp8_e4m3_mac_step (s : MacState) (i : MacIn) : MacState :=
  let captureNow := decide (s.mulSt = MulPipeSt.waitDone) && i.multDone
  let updateNow := decide (s.accSt = AccPipeSt.update)
  { mulSt :=
      match s.mulSt with
      | MulPipeSt.idle => if i.macStart then MulPipeSt.multiply else MulPipeSt.idle
      | MulPipeSt.multiply => MulPipeSt.waitDone
      | MulPipeSt.waitDone => if i.multDone then MulPipeSt.idle else MulPipeSt.waitDone
    accSt :=
      match s.accSt with
      | AccPipeSt.idle => if s.pending then AccPipeSt.add else AccPipeSt.idle
      | AccPipeSt.add => AccPipeSt.waitAdd
      | AccPipeSt.waitAdd => if i.addDone then AccPipeSt.update else AccPipeSt.waitAdd
      | AccPipeSt.update => AccPipeSt.idle
    pending :=
      if i.clearAcc then false
      else if captureNow then true
      else if updateNow then false
      else s.pending
    opA := if decide (s.mulSt = MulPipeSt.idle) && i.macStart then i.inA else s.opA
    opB := if decide (s.mulSt = MulPipeSt.idle) && i.macStart then i.inB else s.opB
    holdReg := if captureNow then i.multResult else s.holdReg
    acc := if i.clearAcc then 0 else if updateNow then i.addResult else s.acc
    outReg := if i.readEnable then s.acc else s.outReg
    macDone := updateNow }

/-- Reset state of the FP8 MAC unit.
Modelled from the spec: reset forces both pipelines idle and all
registers to zero (§5). -/
def macReset : MacState :=
  { mulSt := MulPipeSt.idle, accSt := AccPipeSt.idle, pending := false,
    opA := 0, opB := 0, holdReg := 0, acc := 0, outReg := 0, macDone := false }

/-- State of the FP8 MAC during cycle t, driven by the input stream ins
from reset. -/
def macRun (ins : Nat → MacIn) : Nat → MacState
  | 0 => macReset
  | t + 1 => fp8_e4m3_mac_step (macRun ins t) (ins t)

/-- A concrete MAC input trace for the C9 witness: accepted start at cycle
0, multiplier done at cycle 2, adder done at cycle 5. -/
def macTestIns : Nat → MacIn := fun t =>
  { macStart := t == 0, clearAcc := false, readEnable := false,
    inA := 3, inB := 5, multDone := t == 2, multResult := 17,
    addDone := t == 5, addResult := 42 }

set_option maxRecDepth 40000

/-- C4: running each arithmetic state machine from IDLE through done on
the literal operand encodings yields the bit-exact results of the spec:
add(1.5, 2.0) = 3.5, add(2.0, -1.5) = 0.5, multiply(1.5, 2.0) = 3.0 and
multiply(0.5, 4.0) = 2.0 (encodings 0x3C, 0x40, 0xBC, 0x30, 0x48; results
0x46, 0x30, 0x44, 0x40). -/
theorem fp8_literal_vectors :
    fp8_e4m3_add 0x3C 0x40 = some 0x46 ∧
    fp8_e4m3_add 0x40 0xBC = some 0x30 ∧
    fp8_e4m3_multiply 0x3C 0x40 = some 0x44 ∧
    fp8_e4m3_multiply 0x30 0x48 = some 0x40 := by
  decide

/-- C1: the multiplier CAN emit the NaN encoding 0x7F for a pair of
non-NaN operands: 0x70 (128.0) times 0x47 (3.75) is 480, which exceeds
the largest finite magnitude 448 and should saturate to 0x7E, but the
unit packs biased exponent 15 with mantissa 7 and returns 0x7F.  The two
saturation vectors of the claim do hold. -/
theorem mult_overflow_emits_nan_pattern :
    isNaNpat 0x70 = false ∧ isNaNpat 0x47 = false ∧
    fp8_e4m3_multiply 0x70 0x47 = some 0x7F ∧ isNaNpat 0x7F = true ∧
    fp8_e4m3_add 0x7E 0x7E = some 0x7E ∧
    fp8_e4m3_multiply 0x70 0x70 = some 0x7E := by
  decide

/-- C2: NaN propagation diverges in the multiplier: multiply(0x7F, 0x40)
returns 0x7C (exponent field 15, mantissa 4), which is not the NaN
pattern of the format; the adder does return the NaN pattern. -/
theorem mult_nan_propagation_diverges :
    fp8_e4m3_multiply 0x7F 0x40 = some 0x7C ∧ isNaNpat 0x7C = false ∧
    fp8_e4m3_add 0x7F 0x40 = some 0x7F := by
  decide

/-- C3: the encode/decode round trip fails on the denormal pattern 0x01,
whose decoded value 2^-9 re-encodes to 0x02, and on the negative zero
0x80, which re-encodes to 0x00 rather than 0x80. -/
theorem roundtrip_diverges_on_denormal_and_negzero :
    fp8RoundTrip 0x01 = some 0x02 ∧ fp8RoundTrip 0x80 = some 0x00 := by
  have h1 : fp8_to_float 0x01 = some (1 / 512) := by
    norm_num [fp8_to_float, pow2Q, expField, manField, sliceBits, Nat.testBit,
      Nat.shiftRight_eq_div_pow, Int.toNat]
  have h2 : float_to_fp8 (1 / 512) = 0x02 := by
    norm_num [float_to_fp8, encScaleDown, encScaleUp, pyRound, ratFloor, Int.toNat]
  have h3 : fp8_to_float 0x80 = some 0 := by
    norm_num [fp8_to_float, expField, manField, sliceBits]
  have h4 : float_to_fp8 0 = 0 := by
    norm_num [float_to_fp8]
  refine ⟨?_, ?_⟩
  · simp only [fp8RoundTrip, h1, Option.map_some', h2]
  · simp only [fp8RoundTrip, h3, Option.map_some', h4]

/-- C5 counterexample: 0x01 is a denormal (exponent field 0, nonzero
mantissa), yet multiply(0x01, 0x38 /'*1.0*'/) returns 0x00, not 0x01. -/
theorem mult_identity_denormal_counterexample :
    expField 0x01 = 0 ∧ manField 0x01 ≠ 0 ∧ isNaNpat 0x01 = false ∧
    fp8_e4m3_multiply 0x01 0x38 = some 0x00 ∧
    fp8_e4m3_multiply 0x01 0x38 ≠ some 0x01 := by
  decide

/-- C5 amended: add(a, +0) returns a unchanged for every non-NaN, nonzero
operand a (normal or denormal), and multiply(a, 0x38) returns a unchanged
for every non-NaN operand with nonzero exponent field; the multiplier
identity fails on denormal operands. -/
theorem fp8_identity_amended :
    ∀ a : Nat, a < 256 → isNaNpat a = false →
      ((expField a ≠ 0 ∨ manField a ≠ 0) → fp8_e4m3_add a 0 = some a) ∧
      (expField a ≠ 0 → fp8_e4m3_multiply a 0x38 = some a) := by
  decide

/-- C5 witness: the amended identity instantiated at a = 0x3C (1.5). -/
theorem fp8_identity_amended_witness :
    ((0x3C : Nat) < 256 ∧ isNaNpat 0x3C = false) ∧
    (((expField 0x3C ≠ 0 ∨ manField 0x3C ≠ 0) → fp8_e4m3_add 0x3C 0 = some 0x3C) ∧
     (expField 0x3C ≠ 0 → fp8_e4m3_multiply 0x3C 0x38 = some 0x3C)) :=
  ⟨by decide, fp8_identity_amended 0x3C (by decide) (by decide)⟩

/-- An enable cycle with no pending product latches the combinational
product and raises valid_product. -/
theorem pe_step_latch (w : Nat) (a b : Int) (s : PEState)
    (h : s.valid_product = false) :
    processing_element_step w false true a b s =
      { s with product_latched := a * b, valid_product := true, done_flag := false } := by
  unfold processing_element_step
  simp [h]

/-- A cycle with a pending product performs the clamped accumulation and
recomputes the overflow flag from the attempted sum. -/
theorem pe_step_accum (w : Nat) (s : PEState) (h : s.valid_product = true) :
    processing_element_step w false false 0 0 s =
      { s with
        accumulator :=
          if s.accumulator + s.product_latched > accMax w then accMax w
          else if s.accumulator + s.product_latched < accMin w then accMin w
          else s.accumulator + s.product_latched,
        overflow_flag :=
          decide (accMax w < s.accumulator + s.product_latched ∨
                  s.accumulator + s.product_latched < accMin w),
        done_flag := true, valid_product := false } := by
  unfold processing_element_step
  simp only [h, Bool.and_false, Bool.false_and, Bool.not_true, if_false, if_true,
    Bool.and_true, Bool.true_and]
  split_ifs <;> simp_all

/-- Full characterization of n repeated MAC operations of a fixed pair
with positive product: the accumulator is the clamped partial sum and the
overflow flag reports whether the latest sum exceeded the maximum. -/
theorem peMacOpN_spec (w : Nat) (hw : 1 ≤ w) (a b : Int) (hp : 0 < a * b) :
    ∀ n : Nat, peMacOpN w a b n =
      { accumulator := min ((n : Int) * (a * b)) (accMax w),
        product_latched := if n = 0 then 0 else a * b,
        valid_product := false,
        overflow_flag := decide (accMax w < (n : Int) * (a * b)),
        done_flag := decide (n ≠ 0) } := by
  have hmax : 0 ≤ accMax w := by
    have h2 : (0:Int) < 2 ^ (w - 1) := pow_pos (by norm_num) (w - 1)
    unfold accMax
    omega
  have hmin : accMin w < 0 := by
    have h2 : (0:Int) < 2 ^ (w - 1) := pow_pos (by norm_num) (w - 1)
    unfold accMin
    omega
  intro n
  induction n with
  | zero =>
      have e1 : min (((0 : Nat) : Int) * (a * b)) (accMax w) = 0 := by
        rw [Nat.cast_zero, zero_mul]
        exact min_eq_left hmax
      have e2 : decide (accMax w < ((0 : Nat) : Int) * (a * b)) = false := by
        rw [Nat.cast_zero, zero_mul]
        exact decide_eq_false (by omega)
      simp [peMacOpN, peReset, e1, e2] <;> exact hmax
  | succ n ih =>
      have hq : (0 : Int) ≤ (n : Int) * (a * b) :=
        mul_nonneg (Int.natCast_nonneg n) hp.le
      have hcast : ((n + 1 : Nat) : Int) * (a * b) = (n : Int) * (a * b) + a * b := by
        push_cast
        ring
      rw [peMacOpN, peMacOp, ih, pe_step_latch w a b _ rfl, pe_step_accum w _ rfl]
      simp only [hcast]
      congr 1 <;>
        first
          | rfl
          | (split_ifs <;> omega)
          | (rw [decide_eq_decide]; constructor <;> intro h <;> omega)
          | simp

/-- C6: with a fixed positive product accumulated repeatedly, the PE
accumulator always equals the clamped partial sum (it never wraps), and
on every operation whose running sum exceeds the maximum representable
accumulator value the overflow output is true and the readable result is
exactly that maximum. -/
theorem pe_saturates_never_wraps (w : Nat) (hw : 1 ≤ w) (a b : Int)
    (ha1 : -128 ≤ a) (ha2 : a < 128) (hb1 : -128 ≤ b) (hb2 : b < 128)
    (hp : 0 < a * b) (n : Nat) :
    (peMacOpN w a b n).accumulator = min ((n : Int) * (a * b)) (accMax w) ∧
    (accMax w < (n : Int) * (a * b) →
      (peMacOpN w a b n).overflow_flag = true ∧
      (peMacOpN w a b n).accumulator = accMax w) := by
  rw [peMacOpN_spec w hw a b hp n]
  exact ⟨rfl, fun h => ⟨by simp [h], min_eq_right h.le⟩⟩

/-- C6 witness: accumulator width 4 (maximum 7), product 2*3, two
operations: the running sum 12 exceeds 7, the flag is raised and the
result reads exactly 7. -/
theorem pe_saturates_never_wraps_witness :
    ((1 ≤ 4 ∧ (-128:Int) ≤ 2 ∧ (2:Int) < 128 ∧ (-128:Int) ≤ 3 ∧ (3:Int) < 128 ∧
      (0:Int) < 2 * 3) ∧ accMax 4 < ((2 : Nat) : Int) * (2 * 3)) ∧
    ((peMacOpN 4 2 3 2).accumulator = min (((2 : Nat) : Int) * (2 * 3)) (accMax 4) ∧
     (accMax 4 < ((2 : Nat) : Int) * (2 * 3) →
       (peMacOpN 4 2 3 2).overflow_flag = true ∧
       (peMacOpN 4 2 3 2).accumulator = accMax 4)) :=
  ⟨⟨⟨by norm_num, by norm_num, by norm_num, by norm_num, by norm_num, by norm_num⟩,
    by decide⟩,
   pe_saturates_never_wraps 4 (by norm_num) 2 3 (by norm_num) (by norm_num)
     (by norm_num) (by norm_num) (by norm_num) 2⟩

/-- C10: while a latched product is pending (valid_product high), an
asserted i_enable and the operand pair of that cycle are ignored (the
step equals the step with enable low and zero operands), no new product
is latched, and valid_product falls exactly because that cycle performs
the accumulation (done is pulsed); i_clear also clears valid_product. -/
theorem pe_single_pending_product (w : Nat) (e : Bool) (a b : Int) (s : PEState)
    (hv : s.valid_product = true) :
    processing_element_step w false e a b s = processing_element_step w false false 0 0 s ∧
    (processing_element_step w false e a b s).product_latched = s.product_latched ∧
    (processing_element_step w false e a b s).valid_product = false ∧
    (processing_element_step w false e a b s).done_flag = true ∧
    (processing_element_step w true e a b s).valid_product = false := by
  unfold processing_element_step
  simp only [hv, Bool.not_true, Bool.and_false, Bool.false_and, if_false,
    Bool.true_and, if_true]
  split_ifs <;> simp_all

/-- C10 witness: the pending-product frame instantiated at a concrete
state with a pending product and a concrete ignored operand pair. -/
theorem pe_single_pending_product_witness :
    (PEState.mk 5 6 true false false).valid_product = true ∧
    (processing_element_step 8 false true 9 9 (PEState.mk 5 6 true false false) =
       processing_element_step 8 false false 0 0 (PEState.mk 5 6 true false false) ∧
     (processing_element_step 8 false true 9 9 (PEState.mk 5 6 true false false)).product_latched = 6 ∧
     (processing_element_step 8 false true 9 9 (PEState.mk 5 6 true false false)).valid_product = false ∧
     (processing_element_step 8 false true 9 9 (PEState.mk 5 6 true false false)).done_flag = true ∧
     (processing_element_step 8 true true 9 9 (PEState.mk 5 6 true false false)).valid_product = false) :=
  ⟨rfl, pe_single_pending_product 8 true 9 9 (PEState.mk 5 6 true false false) rfl⟩

/-- C8 counterexample: with accumulator width 8 (maximum 127), one MAC
operation with product 10000 raises the overflow flag and clamps to 127;
a following in-range operation with product -1 deasserts the flag with
no clear or reset in between, so the flag is not sticky. -/
theorem pe_overflow_flag_not_sticky :
    (peMacOpN 8 100 100 1).overflow_flag = true ∧
    (peMacOp 8 1 (-1) (peMacOpN 8 100 100 1)).overflow_flag = false ∧
    (peMacOp 8 1 (-1) (peMacOpN 8 100 100 1)).accumulator = 126 := by
  decide

/-- C8 amended: the PE overflow flag reports the range check of the most
recent accumulation: a clear cycle forces it low, an accumulate cycle
(pending product) recomputes it from the attempted sum, and any other
cycle holds it; the array-level overflow_detected is the combinational
OR of the nine PE flags. -/
theorem pe_overflow_flag_policy :
    (∀ (w : Nat) (e : Bool) (a b : Int) (s : PEState),
       (processing_element_step w true e a b s).overflow_flag = false ∧
       (processing_element_step w false e a b s).overflow_flag =
         (if s.valid_product then
            decide (accMax w < s.accumulator + s.product_latched ∨
                    s.accumulator + s.product_latched < accMin w)
          else s.overflow_flag)) ∧
    (∀ ov : Fin 3 → Fin 3 → Bool,
       processing_array_3x3_overflow ov = true ↔ ∃ r c, ov r c = true) := by
  constructor
  · intro w e a b s
    constructor
    · simp [processing_element_step]
    · unfold processing_element_step
      rcases hv : s.valid_product <;> cases e <;>
        simp only [hv, Bool.not_true, Bool.not_false, Bool.and_false, Bool.and_true,
          Bool.false_and, Bool.true_and, if_false, if_true] <;>
        split_ifs <;> simp_all
  · intro ov
    simp [processing_array_3x3_overflow, List.any_eq_true, List.mem_finRange]

/-- The busy invariant of the MAC (multiply pipeline not idle, or a
product pending) is preserved by any cycle that neither asserts clear_acc
nor lands on a mac_done pulse. -/
theorem mac_busy_preserved (s : MacState) (i : MacIn)
    (hinv : s.mulSt ≠ MulPipeSt.idle ∨ s.pending = true)
    (hclr : i.clearAcc = false)
    (hdone : (fp8_e4m3_mac_step s i).macDone = false) :
    (fp8_e4m3_mac_step s i).mulSt ≠ MulPipeSt.idle ∨
      (fp8_e4m3_mac_step s i).pending = true := by
  rcases hm : s.mulSt with _ | _ | _
  · rcases hinv with h | h
    · exact absurd hm h
    · right
      have hacc : decide (s.accSt = AccPipeSt.update) = false := by
        simpa [fp8_e4m3_mac_step] using hdone
      simp [fp8_e4m3_mac_step, hm, hclr, hacc, h]
  · left
    simp [fp8_e4m3_mac_step, hm]
  · by_cases hd : i.multDone = true
    · right
      simp [fp8_e4m3_mac_step, hm, hclr, hd]
    · left
      simp only [Bool.not_eq_true] at hd
      simp [fp8_e4m3_mac_step, hm, hd]

/-- C9: after an accepted mac_start (ready_for_new high and mac_start
asserted at cycle t0), ready_for_new is false on every cycle strictly
between t0 and the corresponding mac_done pulse, provided clear_acc does
not abort the operation in that window; ready_for_new is by definition
(multiply pipeline idle) AND (no pending product). -/
theorem mac_ready_low_between_start_and_done (ins : Nat → MacIn) (t0 t1 : Nat)
    (hrdy : ready_for_new (macRun ins t0) = true)
    (hstart : (ins t0).macStart = true)
    (hclr : ∀ u, u ≤ t1 → t0 < u → (ins u).clearAcc = false)
    (hdone : ∀ u, u ≤ t1 → t0 < u → (macRun ins u).macDone = false) :
    ∀ u, u ≤ t1 → t0 < u → ready_for_new (macRun ins u) = false := by
  have hidle : (macRun ins t0).mulSt = MulPipeSt.idle := by
    have := hrdy
    unfold ready_for_new at this
    simp only [Bool.and_eq_true, decide_eq_true_eq] at this
    exact this.1
  have key : ∀ u, t0 + 1 ≤ u → u ≤ t1 →
      ((macRun ins u).mulSt ≠ MulPipeSt.idle ∨ (macRun ins u).pending = true) := by
    intro u hu
    induction u, hu using Nat.le_induction with
    | base =>
        intro _
        left
        show (fp8_e4m3_mac_step (macRun ins t0) (ins t0)).mulSt ≠ MulPipeSt.idle
        simp [fp8_e4m3_mac_step, hidle, hstart]
    | succ u hu ih =>
        intro hle
        have hinv := ih (by omega)
        have hstep : macRun ins (u + 1) = fp8_e4m3_mac_step (macRun ins u) (ins u) := rfl
        rw [hstep]
        exact mac_busy_preserved _ _ hinv (hclr u (by omega) (by omega))
          (by rw [← hstep]; exact hdone (u + 1) hle (by omega))
  intro u hle hgt
  rcases key u (by omega) hle with h | h
  · unfold ready_for_new
    simp [h]
  · unfold ready_for_new
    simp [h]

/-- C9 witness: on the concrete trace macTestIns the start at cycle 0 is
accepted, no clear or done pulse occurs through cycle 6, and ready_for_new
is low on cycles 1..6 (the done pulse lands on cycle 7). -/
theorem mac_ready_low_witness :
    (ready_for_new (macRun macTestIns 0) = true ∧ (macTestIns 0).macStart = true ∧
     (∀ u, u ≤ 6 → 0 < u → (macTestIns u).clearAcc = false) ∧
     (∀ u, u ≤ 6 → 0 < u → (macRun macTestIns u).macDone = false)) ∧
    (∀ u, u ≤ 6 → 0 < u → ready_for_new (macRun macTestIns u) = false) :=
  ⟨⟨by decide, by decide, fun u _ _ => rfl, by decide⟩,
   mac_ready_low_between_start_and_done macTestIns 0 6 (by decide) (by decide)
     (fun u _ _ => rfl) (by decide)⟩
